import Mathlib

/-!
Verification of the Doctor-Ai diagnostic reasoning engine.

Shallow embedding of the components of src/src/services/diagnostic.py,
src/src/services/embedding.py, src/src/services/vector_store.py,
src/src/models/schemas.py and src/src/config.py that the verified
properties are about.  Python floats are modelled as rationals
(exact arithmetic) except for the embedding normalisation, which needs a
square root and is modelled over the reals.  Python strings are modelled
as lists of characters.
-/

namespace DoctorAi

/-- Strings of the Python source are modelled as lists of characters. -/
abbrev Str := List Char

/-- Model of Python str.lower, character by character. -/
def strLower (s : Str) : Str := s.map Char.toLower

/-- Boolean test that p is an initial segment of t (helper for substring). -/
def prefB : Str → Str → Bool
  | [], _ => true
  | _ :: _, [] => false
  | a :: as, b :: bs => a == b && prefB as bs

/-- Model of the Python substring test, as in the expression red_flag in text:
true when p occurs contiguously inside t. -/
def subB (p : Str) : Str → Bool
  | [] => prefB p []
  | c :: rest => prefB p (c :: rest) || subB p rest

/-- Severity enumeration of src/src/models/schemas.py. -/
inductive Severity where
  | mild
  | moderate
  | severe
  | critical
deriving DecidableEq

/-- ReviewTier enumeration of src/src/models/schemas.py. -/
inductive ReviewTier where
  | tier1_automated
  | tier2_primary_care
  | tier3_specialist
  | tier4_multidisciplinary
deriving DecidableEq

/-- SymptomInput of src/src/models/schemas.py.  Fields not consulted by the
verified components (frequency, onset_date, location) are omitted. -/
structure SymptomInput where
  description : Str
  severity : Severity := Severity.moderate
  duration_days : Option Int := none
deriving DecidableEq

/-- PatientCase of src/src/models/schemas.py.  Fields not consulted by the
verified components (patient_id, ethnicity, histories, labs, timestamps)
are omitted. -/
structure PatientCase where
  case_id : Str
  age : Int
  symptoms : List SymptomInput
  chief_complaint : Str
deriving DecidableEq

/-- MedicalCondition of src/src/models/schemas.py, restricted to the fields
the verified components read. -/
structure MedicalCondition where
  condition_id : Str
  condition_name : Str
  prevalence : ℚ
  is_rare_disease : Bool := false
  recommended_tests : List Str := []
  specialist_referral : Option Str := none
deriving DecidableEq

/-- DifferentialDiagnosis of src/src/models/schemas.py, restricted to the
fields the verified components read or write. -/
structure DifferentialDiagnosis where
  condition_id : Str
  similarity_score : ℚ
  confidence_score : ℚ
  probability : ℚ
  recommended_next_steps : List Str := []
deriving DecidableEq

/-! Settings defaults of src/src/config.py. -/

/-- Default of Settings.tier1_confidence_threshold (src/src/config.py). -/
def tier1_confidence_threshold : ℚ := 85 / 100

/-- Default of Settings.tier2_confidence_threshold (src/src/config.py). -/
def tier2_confidence_threshold : ℚ := 60 / 100

/-- Default of Settings.tier3_confidence_threshold (src/src/config.py). -/
def tier3_confidence_threshold : ℚ := 40 / 100

/-- Default of Settings.final_results_limit (src/src/config.py). -/
def final_results_limit : ℕ := 10

/-! Red flag detection, DiagnosticService._detect_red_flags. -/

/-- Emergency keyword set self.red_flag_keywords of DiagnosticService.
The Python value is a set whose iteration order is unspecified; it is
modelled as a list in source order.  All verified properties are
independent of the enumeration order. -/
def red_flag_keywords : List Str :=
  ["chest pain".toList, "severe headache".toList, "difficulty breathing".toList,
   "shortness of breath".toList, "loss of consciousness".toList, "seizure".toList,
   "stroke".toList, "paralysis".toList, "severe bleeding".toList,
   "severe abdominal pain".toList, "sudden vision loss".toList, "confusion".toList,
   "altered mental status".toList, "severe trauma".toList, "choking".toList,
   "anaphylaxis".toList, "suicide".toList, "severe burn".toList]

/-- Flag string appended for a critical-severity symptom, from the f-string
in _detect_red_flags. -/
def critical_label (d : Str) : Str := "Critical severity: ".toList ++ d

/-- Keyword scan over the chief complaint: appends every keyword contained
in the lowered chief complaint (first loop of _detect_red_flags; the
source appends without a membership test there). -/
def chief_flags (chief : Str) : List Str :=
  red_flag_keywords.foldl
    (fun a k => if subB k (strLower chief) then a ++ [k] else a) []

/-- Keyword scan over one symptom description: appends a keyword only when
it is contained in the lowered description and not already present
(second loop of _detect_red_flags). -/
def symptom_keyword_flags (desc : Str) (acc : List Str) : List Str :=
  red_flag_keywords.foldl
    (fun a k => if subB k (strLower desc) = true ∧ k ∉ a then a ++ [k] else a) acc

/-- Per-symptom step of _detect_red_flags: keyword scan, then the
unconditional critical-severity append. -/
def red_flag_step (acc : List Str) (s : SymptomInput) : List Str :=
  if s.severity = Severity.critical then
    symptom_keyword_flags s.description acc ++ [critical_label s.description]
  else
    symptom_keyword_flags s.description acc

/-- DiagnosticService._detect_red_flags (src/src/services/diagnostic.py,
lines 177-199). -/
def detect_red_flags (pc : PatientCase) : List Str :=
  pc.symptoms.foldl red_flag_step (chief_flags pc.chief_complaint)

/-- The expression requires_emergency = len(red_flags) greater than 0 of
analyze_patient_case (line 77). -/
def requires_emergency (pc : PatientCase) : Bool :=
  decide (0 < (detect_red_flags pc).length)

/-! Review tier, DiagnosticService._determine_review_tier. -/

/-- DiagnosticService._determine_review_tier (src/src/services/diagnostic.py,
lines 440-456). -/
def determine_review_tier (confidence : ℚ) (req_emergency : Bool) : ReviewTier :=
  if req_emergency then ReviewTier.tier1_automated
  else if tier1_confidence_threshold ≤ confidence then ReviewTier.tier1_automated
  else if tier2_confidence_threshold ≤ confidence then ReviewTier.tier2_primary_care
  else if tier3_confidence_threshold ≤ confidence then ReviewTier.tier3_specialist
  else ReviewTier.tier4_multidisciplinary

/-- The expression ranked_diagnoses[0].confidence_score if ranked_diagnoses
else 0.0 of analyze_patient_case (line 117). -/
def overall_confidence (ranked : List DifferentialDiagnosis) : ℚ :=
  match ranked with
  | [] => 0
  | d :: _ => d.confidence_score

/-! Scoring, DiagnosticService._calculate_confidence and
DiagnosticService._calculate_probability. -/

/-- DiagnosticService._calculate_confidence (src/src/services/diagnostic.py,
lines 353-377). -/
def calculate_confidence (cond : MedicalCondition) (similarity_score : ℚ) : ℚ :=
  let prevalence_factor := min 1 (cond.prevalence * 10)
  let confidence := similarity_score * (9 / 10 + 1 / 10 * prevalence_factor)
  let confidence :=
    if cond.is_rare_disease then confidence * (9 / 10) else confidence
  min 1 confidence

/-- Confidence as the specification words it (spec section 4.5): similarity
times the prevalence adjustment times the rare-disease penalty, capped at
1.0.  Used to compare the source computation against the spec formula. -/
def confidence_spec (s p : ℚ) (rare : Bool) : ℚ :=
  min 1 (s * (9 / 10 + 1 / 10 * min 1 (p * 10)) * (if rare then 9 / 10 else 1))

/-- Denominator of the blend in _calculate_probability:
prior * likelihood + (1 - prior) * (1 - likelihood). -/
def probability_denominator (cond : MedicalCondition) (similarity_score : ℚ) : ℚ :=
  cond.prevalence * similarity_score +
    (1 - cond.prevalence) * (1 - similarity_score)

/-- DiagnosticService._calculate_probability (src/src/services/diagnostic.py,
lines 379-397).  In Python a zero denominator raises ZeroDivisionError; in
this model division by zero yields zero. -/
def calculate_probability (cond : MedicalCondition) (similarity_score : ℚ) : ℚ :=
  (cond.prevalence * similarity_score) / probability_denominator cond similarity_score

/-! Structural validation of PatientCase, src/src/models/schemas.py
(lines 178-229).  The pydantic model constrains age to 0..150 and each
symptom duration to be nonnegative; it places no bound, lower or upper, on
the length of the symptoms list. -/

/-- Field-level validation of SymptomInput: duration_days carries ge=0,
the remaining fields carry no constraints. -/
def validate_symptom_input (s : SymptomInput) : Bool :=
  match s.duration_days with
  | none => true
  | some d => decide (0 ≤ d)

/-- Validation performed by the pydantic PatientCase model: age between 0
and 150 and every symptom valid.  The symptoms field is declared as
List[SymptomInput] with no min_items or max_items constraint. -/
def validate_patient_case (pc : PatientCase) : Bool :=
  decide (0 ≤ pc.age) && decide (pc.age ≤ 150) &&
    pc.symptoms.all validate_symptom_input

/-! Vector store result conversion, VectorStoreService.search
(src/src/services/vector_store.py, lines 280-289). -/

/-- Payload of a scored point as stored in the index: the prevalence field
is optional here because a malformed knowledge-base entry may lack it. -/
structure ConditionPayload where
  condition_id : Str
  condition_name : Str
  prevalence : Option ℚ
  is_rare_disease : Bool := false
  recommended_tests : List Str := []
  specialist_referral : Option Str := none
deriving DecidableEq

/-- A search hit returned by the index provider. -/
structure ScoredPoint where
  payload : ConditionPayload
  score : ℚ
deriving DecidableEq

/-- Pydantic construction MedicalCondition(**scored_point.payload):
prevalence is a required field (Field(..., ge=0.0, le=1.0)), so a payload
without it fails validation; an out-of-range value fails the bound checks. -/
def parse_condition (p : ConditionPayload) : Except Str MedicalCondition :=
  match p.prevalence with
  | none => Except.error "validation error: prevalence field required".toList
  | some q =>
    if 0 ≤ q ∧ q ≤ 1 then
      Except.ok
        { condition_id := p.condition_id
          condition_name := p.condition_name
          prevalence := q
          is_rare_disease := p.is_rare_disease
          recommended_tests := p.recommended_tests
          specialist_referral := p.specialist_referral }
    else Except.error "validation error: prevalence out of range".toList

/-- Result-conversion loop of VectorStoreService.search: each point payload
is parsed into a MedicalCondition; the first validation error propagates
(the surrounding except block re-raises), aborting the whole batch. -/
def search_results (pts : List ScoredPoint) :
    Except Str (List (MedicalCondition × ℚ)) :=
  match pts with
  | [] => Except.ok []
  | pt :: rest =>
    match parse_condition pt.payload with
    | Except.error e => Except.error e
    | Except.ok c =>
      match search_results rest with
      | Except.error e => Except.error e
      | Except.ok cs => Except.ok ((c, pt.score) :: cs)

/-! Recommendation aggregation, DiagnosticService._generate_recommendations
(src/src/services/diagnostic.py, lines 458-475).

The source collects values into Python set objects and returns
list(specialists) and list(tests)[:5].  A Python set has no defined
iteration order (it depends on string hashes and PYTHONHASHSEED), so the
conversion of each set to a list is modelled by an enumeration parameter
that may be any permutation of the set contents.  The set contents are
represented canonically as the duplicate-free list of elements in first
insertion order. -/

/-- Set insertion: adding an element already present leaves the set
unchanged. -/
def insert_new (a : List Str) (x : Str) : List Str :=
  if x ∈ a then a else a ++ [x]

/-- Contents of the specialists set after the loop over diagnoses[:3].
Python truthiness: the referral is added only when the condition was found
and its specialist_referral field is neither None nor the empty string. -/
def specialists_inserted (get_condition : Str → Option MedicalCondition)
    (diagnoses : List DifferentialDiagnosis) : List Str :=
  (diagnoses.take 3).foldl
    (fun acc d =>
      match get_condition d.condition_id with
      | none => acc
      | some c =>
        match c.specialist_referral with
        | none => acc
        | some r => if r = [] then acc else insert_new acc r)
    []

/-- Contents of the tests set after the loop over diagnoses[:3]:
tests.update adds each recommended next step. -/
def tests_inserted (diagnoses : List DifferentialDiagnosis) : List Str :=
  (diagnoses.take 3).foldl
    (fun acc d => d.recommended_next_steps.foldl insert_new acc) []

/-- DiagnosticService._generate_recommendations.  enum_s and enum_t stand
for the unspecified iteration orders of the two Python sets; a faithful
enumeration is any permutation of the set contents. -/
def generate_recommendations (enum_s enum_t : List Str → List Str)
    (get_condition : Str → Option MedicalCondition)
    (diagnoses : List DifferentialDiagnosis) : List Str × List Str :=
  (enum_s (specialists_inserted get_condition diagnoses),
   (enum_t (tests_inserted diagnoses)).take 5)

/-! Ranking, DiagnosticService._rank_and_score_diagnoses
(src/src/services/diagnostic.py, lines 292-351) and the truncation of
analyze_patient_case (line 155). -/

/-- Construction of one DifferentialDiagnosis inside the candidate loop of
_rank_and_score_diagnoses (evidence fields are omitted, see the structure
declaration). -/
def build_diagnosis (cond : MedicalCondition) (similarity_score : ℚ) :
    DifferentialDiagnosis :=
  { condition_id := cond.condition_id
    similarity_score := similarity_score
    confidence_score := calculate_confidence cond similarity_score
    probability := calculate_probability cond similarity_score
    recommended_next_steps := cond.recommended_tests.take 3 }

/-- Stable insertion of x into a list sorted by descending key: x passes
over elements of strictly greater key and stops before the first element
whose key is not greater, so equal keys keep their existing order. -/
def ordered_insert_desc {α : Type} (key : α → ℚ) (x : α) : List α → List α
  | [] => [x]
  | y :: ys =>
    if key y ≤ key x then x :: y :: ys else y :: ordered_insert_desc key x ys

/-- Stable descending sort by key.  Python list.sort(key=..., reverse=True)
is a stable descending sort; the stable descending ordering of a list is
unique, so this (stable) insertion sort computes the same list. -/
def sort_desc {α : Type} (key : α → ℚ) : List α → List α
  | [] => []
  | x :: xs => ordered_insert_desc key x (sort_desc key xs)

/-- Scored candidate list in retrieval order, before the sort (the loop of
_rank_and_score_diagnoses). -/
def scored_list (candidates : List (MedicalCondition × ℚ)) :
    List DifferentialDiagnosis :=
  candidates.map (fun cs => build_diagnosis cs.1 cs.2)

/-- DiagnosticService._rank_and_score_diagnoses: build every diagnosis in
retrieval order, then diagnoses.sort(key = confidence, reverse = True). -/
def rank_and_score_diagnoses (candidates : List (MedicalCondition × ℚ)) :
    List DifferentialDiagnosis :=
  sort_desc (fun d => d.confidence_score) (scored_list candidates)

/-- Truncation ranked_diagnoses[:final_results_limit] applied in
analyze_patient_case when building the result (line 155). -/
def ranked_output (candidates : List (MedicalCondition × ℚ)) :
    List DifferentialDiagnosis :=
  (rank_and_score_diagnoses candidates).take final_results_limit

/-- Descending-confidence relation used to state sortedness. -/
def conf_ge (a b : DifferentialDiagnosis) : Prop :=
  b.confidence_score ≤ a.confidence_score

/-- Stability relation on index-tagged diagnoses: strictly greater
confidence first, and original position order among equal confidences. -/
def conf_lex (a b : ℕ × DifferentialDiagnosis) : Prop :=
  b.2.confidence_score < a.2.confidence_score ∨
    (a.2.confidence_score = b.2.confidence_score ∧ a.1 < b.1)

/-! Constellation encoding, EmbeddingService.encode_symptom_constellation
(src/src/services/embedding.py, lines 135-171).  The numpy float vectors
are modelled as lists of reals. -/

/-- Sum of squares of the components of a vector. -/
def sumSq : List ℝ → ℝ
  | [] => 0
  | x :: v => x * x + sumSq v

/-- Euclidean norm, np.linalg.norm. -/
noncomputable def l2norm (v : List ℝ) : ℝ := Real.sqrt (sumSq v)

/-- Division of a vector by its norm, the final statement of
encode_symptom_constellation.  In numpy, dividing by a zero norm produces
NaN entries; in this model division by zero yields zero, and in either
semantics the result of a zero-norm input is not unit-norm. -/
noncomputable def normalize_vec (v : List ℝ) : List ℝ :=
  v.map (fun x => x / l2norm v)

/-- Per-row weighting symptom_embeddings * weights_array (weights reshaped
to a column, so row i is scaled by weight i). -/
def weight_vecs (weights : List ℝ) (embs : List (List ℝ)) : List (List ℝ) :=
  List.zipWith (fun w v => v.map (fun x => w * x)) weights embs

/-- Element-wise sum of a batch of equal-length vectors. -/
def vsum : List (List ℝ) → List ℝ
  | [] => []
  | [v] => v
  | v :: rest => List.zipWith (fun a b => a + b) v (vsum rest)

/-- np.mean(arr, axis=0): element-wise sum divided by the row count. -/
noncomputable def vmean (vs : List (List ℝ)) : List ℝ :=
  (vsum vs).map (fun x => x / (vs.length : ℝ))

/-- Weighted mean of the per-descriptor embeddings, the value of
constellation_embedding before the final normalisation. -/
noncomputable def constellation_mean (embs : List (List ℝ)) (weights : List ℝ) :
    List ℝ :=
  vmean (weight_vecs weights embs)

/-- EmbeddingService.encode_symptom_constellation on the per-descriptor
embeddings returned by the provider (already unit-normalised by
encode(normalize=True)) and the per-descriptor weights: weight each
embedding, take the element-wise mean, renormalise to unit norm. -/
noncomputable def encode_symptom_constellation (embs : List (List ℝ))
    (weights : List ℝ) : List ℝ :=
  normalize_vec (constellation_mean embs weights)

/-! Concrete fixtures used by witnesses and counterexamples. -/

/-- A valid symptom with no optional data. -/
def sym_cough : SymptomInput :=
  { description := "cough".toList, severity := Severity.mild }

/-- A critical-severity symptom whose description contains no emergency
keyword. -/
def sym_dizzy_critical : SymptomInput :=
  { description := "dizzy".toList, severity := Severity.critical }

/-- Case with one critical symptom (witness input for the red-flag claim). -/
def case_critical : PatientCase :=
  { case_id := "case_a".toList
    age := 40
    symptoms := [sym_cough, sym_dizzy_critical]
    chief_complaint := "malaise".toList }

/-- Case with two critical symptoms sharing one description
(counterexample input for the deduplication claim). -/
def case_dup_critical : PatientCase :=
  { case_id := "case_b".toList
    age := 40
    symptoms := [sym_dizzy_critical, sym_dizzy_critical]
    chief_complaint := "malaise".toList }

/-- Case with 51 valid symptoms: the pydantic model accepts it. -/
def case_51 : PatientCase :=
  { case_id := "case_c".toList
    age := 35
    symptoms := List.replicate 51 sym_cough
    chief_complaint := "fatigue".toList }

/-- Case with an empty symptom list: the pydantic model accepts it too. -/
def case_empty : PatientCase :=
  { case_id := "case_d".toList
    age := 35
    symptoms := []
    chief_complaint := "fatigue".toList }

/-- A condition with prevalence 0 (the field allows the whole range 0..1). -/
def cond_prev_zero : MedicalCondition :=
  { condition_id := "c000".toList
    condition_name := "zero prevalence condition".toList
    prevalence := 0 }

/-- A common condition used by scoring witnesses. -/
def cond_common : MedicalCondition :=
  { condition_id := "c001".toList
    condition_name := "common condition".toList
    prevalence := 1 / 2 }

/-- A well-formed scored point. -/
def pt_good : ScoredPoint :=
  { payload :=
      { condition_id := "c010".toList
        condition_name := "influenza".toList
        prevalence := some (1 / 10) }
    score := 7 / 10 }

/-- A scored point whose payload lacks prevalence data. -/
def pt_missing_prevalence : ScoredPoint :=
  { payload :=
      { condition_id := "c011".toList
        condition_name := "malformed entry".toList
        prevalence := none }
    score := 6 / 10 }

/-- A diagnosis carrying two distinct recommended next steps, used to
exhibit the set-enumeration counterexample. -/
def diag_two_tests : DifferentialDiagnosis :=
  { condition_id := "c020".toList
    similarity_score := 1 / 2
    confidence_score := 1 / 2
    probability := 1 / 2
    recommended_next_steps := ["blood test".toList, "x-ray".toList] }

/-! Lemmas about the red-flag keyword folds. -/

/-- The keyword fold over one symptom never shortens the accumulator. -/
theorem keyword_fold_length_le (txt : Str) :
    ∀ (ks : List Str) (acc : List Str),
      acc.length ≤ (ks.foldl
        (fun a k => if subB k (strLower txt) = true ∧ k ∉ a then a ++ [k] else a)
        acc).length := by
  intro ks
  induction ks with
  | nil => intro acc; exact Nat.le_refl _
  | cons k ks ih =>
    intro acc
    refine Nat.le_trans ?_ (ih _)
    by_cases h : subB k (strLower txt) = true ∧ k ∉ acc
    · simp [h]
    · simp [h]

/-- Unfolding of the step at a critical-severity symptom. -/
theorem red_flag_step_critical (acc : List Str) (s : SymptomInput)
    (h : s.severity = Severity.critical) :
    red_flag_step acc s =
      symptom_keyword_flags s.description acc ++ [critical_label s.description] := by
  simp [red_flag_step, h]

/-- Unfolding of the step at a non-critical symptom. -/
theorem red_flag_step_not_critical (acc : List Str) (s : SymptomInput)
    (h : ¬ s.severity = Severity.critical) :
    red_flag_step acc s = symptom_keyword_flags s.description acc := by
  simp [red_flag_step, h]

/-- The per-symptom red flag step never shortens the accumulator. -/
theorem red_flag_step_length_le (acc : List Str) (s : SymptomInput) :
    acc.length ≤ (red_flag_step acc s).length := by
  have hk := keyword_fold_length_le s.description red_flag_keywords acc
  by_cases h : s.severity = Severity.critical
  · rw [red_flag_step_critical acc s h]
    simp only [List.length_append]
    unfold symptom_keyword_flags
    omega
  · rw [red_flag_step_not_critical acc s h]
    exact hk

/-- The fold over a symptom list never shortens the accumulator. -/
theorem red_flag_fold_length_le :
    ∀ (syms : List SymptomInput) (acc : List Str),
      acc.length ≤ (syms.foldl red_flag_step acc).length := by
  intro syms
  induction syms with
  | nil => intro acc; exact Nat.le_refl _
  | cons s rest ih =>
    intro acc
    exact Nat.le_trans (red_flag_step_length_le acc s) (ih _)

/-- Processing a critical-severity symptom leaves a nonempty accumulator. -/
theorem red_flag_step_critical_ne_nil (acc : List Str) (s : SymptomInput)
    (h : s.severity = Severity.critical) : red_flag_step acc s ≠ [] := by
  unfold red_flag_step
  simp [h]

/-- A critical symptom anywhere in the list forces a nonempty fold result. -/
theorem red_flag_fold_ne_nil :
    ∀ (syms : List SymptomInput) (acc : List Str),
      (∃ s ∈ syms, s.severity = Severity.critical) →
      syms.foldl red_flag_step acc ≠ [] := by
  intro syms
  induction syms with
  | nil =>
    intro acc h
    obtain ⟨s, hs, _⟩ := h
    exact absurd hs (List.not_mem_nil s)
  | cons s rest ih =>
    intro acc h
    obtain ⟨t, ht, hcrit⟩ := h
    rcases List.mem_cons.mp ht with rfl | htr
    · intro hnil
      have h1 : 1 ≤ (red_flag_step acc t).length := by
        have := red_flag_step_critical_ne_nil acc t hcrit
        exact Nat.one_le_iff_ne_zero.mpr (fun hz => this (List.eq_nil_of_length_eq_zero hz))
      have h2 := red_flag_fold_length_le rest (red_flag_step acc t)
      rw [List.foldl_cons] at hnil
      rw [hnil] at h2
      simp only [List.length_nil] at h2
      omega
    · exact ih (red_flag_step acc s) ⟨t, htr, hcrit⟩

/-- Claim C1: for every PatientCase containing at least one symptom with
severity critical, _detect_red_flags returns a nonempty flag list, the
derived requires_emergency_care boolean of analyze_patient_case is true,
and _determine_review_tier assigns Tier 1 regardless of the overall
confidence value. -/
theorem critical_symptom_forces_tier1 (pc : PatientCase)
    (h : ∃ s ∈ pc.symptoms, s.severity = Severity.critical) :
    detect_red_flags pc ≠ [] ∧
    requires_emergency pc = true ∧
    ∀ conf : ℚ,
      determine_review_tier conf (requires_emergency pc) =
        ReviewTier.tier1_automated := by
  have hne : detect_red_flags pc ≠ [] :=
    red_flag_fold_ne_nil pc.symptoms (chief_flags pc.chief_complaint) h
  have hreq : requires_emergency pc = true := by
    unfold requires_emergency
    simp [List.length_pos, hne]
  refine ⟨hne, hreq, ?_⟩
  intro conf
  rw [hreq]
  unfold determine_review_tier
  simp

/-- Witness for C1 at a concrete case with one critical symptom. -/
theorem critical_symptom_forces_tier1_witness :
    (∃ s ∈ case_critical.symptoms, s.severity = Severity.critical) ∧
    detect_red_flags case_critical ≠ [] ∧
    requires_emergency case_critical = true ∧
    determine_review_tier (1 / 2) (requires_emergency case_critical) =
      ReviewTier.tier1_automated := by
  have h : ∃ s ∈ case_critical.symptoms, s.severity = Severity.critical := by decide
  obtain ⟨h1, h2, h3⟩ := critical_symptom_forces_tier1 case_critical h
  exact ⟨h, h1, h2, h3 (1 / 2)⟩

/-! Deduplication properties of the red-flag list (claim C8). -/

/-- The chief-complaint scan is a filter of the keyword list. -/
theorem chief_flags_eq_filter (chief : Str) :
    chief_flags chief =
      red_flag_keywords.filter (fun k => subB k (strLower chief)) := by
  unfold chief_flags
  have aux : ∀ (ks : List Str) (acc : List Str),
      ks.foldl (fun a k => if subB k (strLower chief) then a ++ [k] else a) acc =
        acc ++ ks.filter (fun k => subB k (strLower chief)) := by
    intro ks
    induction ks with
    | nil => intro acc; simp
    | cons k ks ih =>
      intro acc
      by_cases h : subB k (strLower chief)
      · simp [h, ih]
      · simp [h, ih]
  simpa using aux red_flag_keywords []

/-- The emergency keyword list holds no duplicates. -/
theorem red_flag_keywords_nodup : red_flag_keywords.Nodup := by decide

/-- Elements added by the chief-complaint scan are keywords. -/
theorem chief_flags_subset (chief : Str) :
    ∀ x ∈ chief_flags chief, x ∈ red_flag_keywords := by
  intro x hx
  rw [chief_flags_eq_filter] at hx
  exact List.mem_of_mem_filter hx

/-- The chief-complaint scan yields a duplicate-free list. -/
theorem chief_flags_nodup (chief : Str) : (chief_flags chief).Nodup := by
  rw [chief_flags_eq_filter]
  exact List.Nodup.filter _ red_flag_keywords_nodup

/-- A critical-severity flag string is never one of the emergency keywords
(it starts with an upper-case letter, the keywords do not). -/
theorem critical_label_ne_keyword (d : Str) :
    ∀ k ∈ red_flag_keywords, critical_label d ≠ k := by
  intro k hk heq
  have htake : ("Critical severity: ".toList ++ d).take 1 = k.take 1 :=
    congrArg (List.take 1) heq
  rw [List.take_append_of_le_length (by decide)] at htake
  have : ∀ k2 ∈ red_flag_keywords,
      ("Critical severity: ".toList.take 1 = k2.take 1) = False := by decide
  exact absurd htake (by simpa using this k hk)

/-- Critical-severity flag strings determine their description. -/
theorem critical_label_inj {d e : Str}
    (h : critical_label d = critical_label e) : d = e :=
  List.append_cancel_left h

/-- The keyword scan over a symptom preserves freedom from duplicates. -/
theorem keyword_fold_nodup (txt : Str) :
    ∀ (ks : List Str) (acc : List Str), acc.Nodup →
      (ks.foldl
        (fun a k => if subB k (strLower txt) = true ∧ k ∉ a then a ++ [k] else a)
        acc).Nodup := by
  intro ks
  induction ks with
  | nil => intro acc h; exact h
  | cons k ks ih =>
    intro acc h
    refine ih _ ?_
    by_cases hc : subB k (strLower txt) = true ∧ k ∉ acc
    · simp only [if_pos hc]
      simp [List.nodup_append, h, hc.2]
    · simpa [hc] using h

/-- Elements after the keyword scan come from the accumulator or from the
keyword list. -/
theorem keyword_fold_mem (txt : Str) :
    ∀ (ks : List Str) (acc : List Str) (x : Str),
      x ∈ ks.foldl
        (fun a k => if subB k (strLower txt) = true ∧ k ∉ a then a ++ [k] else a)
        acc →
      x ∈ acc ∨ x ∈ ks := by
  intro ks
  induction ks with
  | nil => intro acc x hx; exact Or.inl hx
  | cons k ks ih =>
    intro acc x hx
    rcases ih _ x hx with hmem | hmem
    · simp only [] at hmem
      by_cases hc : subB k (strLower txt) = true ∧ k ∉ acc
      · simp only [if_pos hc, List.mem_append, List.mem_singleton] at hmem
        rcases hmem with hmem | rfl
        · exact Or.inl hmem
        · exact Or.inr (List.mem_cons_self _ _)
      · rw [if_neg hc] at hmem
        exact Or.inl hmem
    · exact Or.inr (List.mem_cons_of_mem _ hmem)

/-- Provenance invariant carried through the symptom fold: every
accumulated flag is either a keyword, or the critical label of a
description that no critical symptom still to be processed shares. -/
def flag_good (future : List SymptomInput) (x : Str) : Prop :=
  x ∈ red_flag_keywords ∨
    ∃ d, x = critical_label d ∧
      ∀ s ∈ future, s.severity = Severity.critical → d ≠ s.description

/-- Core induction for C8: when the critical symptoms still to be folded
have pairwise distinct descriptions and the accumulator is duplicate-free
with good provenance, the fold stays duplicate-free. -/
theorem red_flag_fold_nodup :
    ∀ (syms : List SymptomInput) (acc : List Str),
      List.Pairwise
        (fun a b => a.severity = Severity.critical →
          b.severity = Severity.critical → a.description ≠ b.description) syms →
      acc.Nodup → (∀ x ∈ acc, flag_good syms x) →
      (syms.foldl red_flag_step acc).Nodup := by
  intro syms
  induction syms with
  | nil => intro acc _ hnd _; exact hnd
  | cons s rest ih =>
    intro acc hpw hnd hgood
    have hpw1 := (List.pairwise_cons.mp hpw).1
    have hpw2 := (List.pairwise_cons.mp hpw).2
    rw [List.foldl_cons]
    have hnd1 : (symptom_keyword_flags s.description acc).Nodup :=
      keyword_fold_nodup s.description red_flag_keywords acc hnd
    have hmem1 : ∀ x ∈ symptom_keyword_flags s.description acc,
        x ∈ acc ∨ x ∈ red_flag_keywords := by
      intro x hx
      exact keyword_fold_mem s.description red_flag_keywords acc x hx
    have hgood1 : ∀ x ∈ symptom_keyword_flags s.description acc,
        flag_good rest x := by
      intro x hx
      rcases hmem1 x hx with hxa | hxk
      · rcases hgood x hxa with hk | ⟨d, rfl, hd⟩
        · exact Or.inl hk
        · exact Or.inr ⟨d, rfl, fun t ht hc => hd t (List.mem_cons_of_mem _ ht) hc⟩
      · exact Or.inl hxk
    by_cases hcrit : s.severity = Severity.critical
    · rw [red_flag_step_critical acc s hcrit]
      apply ih _ hpw2
      · rw [List.nodup_append]
        refine ⟨hnd1, List.nodup_singleton _, ?_⟩
        intro x hx hxs
        rw [List.mem_singleton] at hxs
        subst hxs
        rcases hmem1 _ hx with hxa | hxk
        · rcases hgood _ hxa with hk | ⟨d, hlab, hd⟩
          · exact critical_label_ne_keyword s.description _ hk rfl
          · exact hd s (List.mem_cons_self _ _) hcrit (critical_label_inj hlab).symm
        · exact critical_label_ne_keyword s.description _ hxk rfl
      · intro x hx
        rcases List.mem_append.mp hx with hx1 | hx1
        · exact hgood1 x hx1
        · rw [List.mem_singleton] at hx1
          subst hx1
          exact Or.inr ⟨s.description, rfl, fun t ht htc => hpw1 t ht hcrit htc⟩
    · rw [red_flag_step_not_critical acc s hcrit]
      exact ih _ hpw2 hnd1 hgood1

/-- Claim C8 as amended: when the critical-severity symptoms of a case
have pairwise distinct descriptions, the red-flag list holds no duplicate
strings; and for every case the derived requires_emergency_care boolean is
true exactly when the flag list is nonempty.  (The unamended claim fails
because the critical-severity append of _detect_red_flags performs no
membership test, see the counterexample.) -/
theorem red_flags_nodup_and_emergency_iff (pc : PatientCase)
    (h : List.Pairwise
      (fun a b => a.severity = Severity.critical →
        b.severity = Severity.critical → a.description ≠ b.description)
      pc.symptoms) :
    (detect_red_flags pc).Nodup ∧
    (requires_emergency pc = true ↔ detect_red_flags pc ≠ []) := by
  constructor
  · unfold detect_red_flags
    refine red_flag_fold_nodup pc.symptoms _ h
      (chief_flags_nodup pc.chief_complaint) ?_
    intro x hx
    exact Or.inl (chief_flags_subset pc.chief_complaint x hx)
  · unfold requires_emergency
    simp [List.length_pos]

/-- Witness for C8 at a concrete case whose critical symptoms have
distinct descriptions. -/
theorem red_flags_nodup_and_emergency_iff_witness :
    (List.Pairwise
      (fun a b => a.severity = Severity.critical →
        b.severity = Severity.critical → a.description ≠ b.description)
      case_critical.symptoms) ∧
    (detect_red_flags case_critical).Nodup ∧
    (requires_emergency case_critical = true ↔
      detect_red_flags case_critical ≠ []) := by
  have h : List.Pairwise
      (fun a b => a.severity = Severity.critical →
        b.severity = Severity.critical → a.description ≠ b.description)
      case_critical.symptoms := by decide
  obtain ⟨h1, h2⟩ := red_flags_nodup_and_emergency_iff case_critical h
  exact ⟨h, h1, h2⟩

/-- Counterexample to C8 as stated: a case with two critical symptoms
sharing one description yields a flag list with a duplicate string,
because _detect_red_flags appends the critical-severity entry without a
membership test. -/
theorem red_flags_duplicate_counterexample :
    ¬ (detect_red_flags case_dup_critical).Nodup := by decide

/-- Claim C2: with no emergency flag, _determine_review_tier returns
Tier 1 exactly when the confidence reaches the 0.85 default threshold,
Tier 2 exactly when it reaches 0.60 but not 0.85, Tier 3 exactly when it
reaches 0.40 but not 0.60, and Tier 4 otherwise; with the emergency flag
set it returns Tier 1 for every confidence; and the overall confidence of
analyze_patient_case is the confidence of the top-ranked diagnosis, or 0
when the ranked list is empty. -/
theorem tier_classifier_thresholds (c : ℚ) (h0 : 0 ≤ c) (h1 : c ≤ 1) :
    determine_review_tier c true = ReviewTier.tier1_automated ∧
    (determine_review_tier c false = ReviewTier.tier1_automated ↔
      tier1_confidence_threshold ≤ c) ∧
    (determine_review_tier c false = ReviewTier.tier2_primary_care ↔
      (tier2_confidence_threshold ≤ c ∧ c < tier1_confidence_threshold)) ∧
    (determine_review_tier c false = ReviewTier.tier3_specialist ↔
      (tier3_confidence_threshold ≤ c ∧ c < tier2_confidence_threshold)) ∧
    (determine_review_tier c false = ReviewTier.tier4_multidisciplinary ↔
      c < tier3_confidence_threshold) ∧
    overall_confidence [] = 0 ∧
    (∀ (d : DifferentialDiagnosis) (rest : List DifferentialDiagnosis),
      overall_confidence (d :: rest) = d.confidence_score) := by
  have hemer : determine_review_tier c true = ReviewTier.tier1_automated := by
    unfold determine_review_tier
    simp
  have ht1 : determine_review_tier c false = ReviewTier.tier1_automated ↔
      tier1_confidence_threshold ≤ c := by
    unfold determine_review_tier tier1_confidence_threshold
      tier2_confidence_threshold tier3_confidence_threshold
    split_ifs <;> simp_all <;> intros <;> linarith
  have ht2 : determine_review_tier c false = ReviewTier.tier2_primary_care ↔
      (tier2_confidence_threshold ≤ c ∧ c < tier1_confidence_threshold) := by
    unfold determine_review_tier tier1_confidence_threshold
      tier2_confidence_threshold tier3_confidence_threshold
    split_ifs <;> simp_all <;> intros <;> linarith
  have ht3 : determine_review_tier c false = ReviewTier.tier3_specialist ↔
      (tier3_confidence_threshold ≤ c ∧ c < tier2_confidence_threshold) := by
    unfold determine_review_tier tier1_confidence_threshold
      tier2_confidence_threshold tier3_confidence_threshold
    split_ifs <;> simp_all <;> intros <;> linarith
  have ht4 : determine_review_tier c false = ReviewTier.tier4_multidisciplinary ↔
      c < tier3_confidence_threshold := by
    unfold determine_review_tier tier1_confidence_threshold
      tier2_confidence_threshold tier3_confidence_threshold
    split_ifs <;> simp_all <;> intros <;> linarith
  exact ⟨hemer, ht1, ht2, ht3, ht4, rfl, fun d rest => rfl⟩

/-- Witness for C2 at confidence 0.7, which lands in Tier 2. -/
theorem tier_classifier_thresholds_witness :
    (0 ≤ (7 / 10 : ℚ) ∧ (7 / 10 : ℚ) ≤ 1) ∧
    (determine_review_tier (7 / 10) false = ReviewTier.tier2_primary_care ↔
      (tier2_confidence_threshold ≤ (7 / 10 : ℚ) ∧
        (7 / 10 : ℚ) < tier1_confidence_threshold)) := by
  have h0 : (0 : ℚ) ≤ 7 / 10 := by norm_num
  have h1 : (7 / 10 : ℚ) ≤ 1 := by norm_num
  exact ⟨⟨h0, h1⟩, (tier_classifier_thresholds (7 / 10) h0 h1).2.2.1⟩

/-- Claim C3: _calculate_confidence computes exactly the capped product of
the specification formula, and the result lies in the unit interval for
any similarity and prevalence in the unit interval. -/
theorem confidence_formula_and_bounds (cond : MedicalCondition) (s : ℚ)
    (hs0 : 0 ≤ s) (hs1 : s ≤ 1)
    (hp0 : 0 ≤ cond.prevalence) (hp1 : cond.prevalence ≤ 1) :
    calculate_confidence cond s =
      confidence_spec s cond.prevalence cond.is_rare_disease ∧
    0 ≤ calculate_confidence cond s ∧ calculate_confidence cond s ≤ 1 := by
  have hmin0 : 0 ≤ min 1 (cond.prevalence * 10) :=
    le_min (by norm_num) (by positivity)
  have hfac : 0 ≤ 9 / 10 + 1 / 10 * min 1 (cond.prevalence * 10) := by linarith
  have heq : calculate_confidence cond s =
      confidence_spec s cond.prevalence cond.is_rare_disease := by
    unfold calculate_confidence confidence_spec
    cases cond.is_rare_disease <;> simp <;> ring_nf
  have hbase : 0 ≤ s * (9 / 10 + 1 / 10 * min 1 (cond.prevalence * 10)) :=
    mul_nonneg hs0 hfac
  have hlow : 0 ≤ calculate_confidence cond s := by
    unfold calculate_confidence
    cases h : cond.is_rare_disease <;> simp only [h] <;>
      refine le_min (by norm_num) ?_
    · exact hbase
    · exact mul_nonneg hbase (by norm_num)
  have hhigh : calculate_confidence cond s ≤ 1 := by
    unfold calculate_confidence
    cases h : cond.is_rare_disease <;> simp only [h] <;> exact min_le_left _ _
  exact ⟨heq, hlow, hhigh⟩

/-- Witness for C3 at a concrete condition and similarity. -/
theorem confidence_formula_and_bounds_witness :
    (0 ≤ (3 / 5 : ℚ) ∧ (3 / 5 : ℚ) ≤ 1 ∧
      0 ≤ cond_common.prevalence ∧ cond_common.prevalence ≤ 1) ∧
    (calculate_confidence cond_common (3 / 5) =
        confidence_spec (3 / 5) cond_common.prevalence cond_common.is_rare_disease ∧
      0 ≤ calculate_confidence cond_common (3 / 5) ∧
      calculate_confidence cond_common (3 / 5) ≤ 1) := by
  have hs0 : (0 : ℚ) ≤ 3 / 5 := by norm_num
  have hs1 : (3 / 5 : ℚ) ≤ 1 := by norm_num
  have hp0 : 0 ≤ cond_common.prevalence := by norm_num [cond_common]
  have hp1 : cond_common.prevalence ≤ 1 := by norm_num [cond_common]
  exact ⟨⟨hs0, hs1, hp0, hp1⟩,
    confidence_formula_and_bounds cond_common (3 / 5) hs0 hs1 hp0 hp1⟩

/-- Counterexample to C4 as stated: at prevalence 0 and similarity 1, both
inside the unit interval, the denominator of _calculate_probability is
zero (in Python the division raises ZeroDivisionError). -/
theorem probability_denominator_zero_counterexample :
    probability_denominator cond_prev_zero 1 = 0 ∧
    0 ≤ cond_prev_zero.prevalence ∧ cond_prev_zero.prevalence ≤ 1 ∧
    (0 : ℚ) ≤ 1 ∧ (1 : ℚ) ≤ 1 := by
  refine ⟨?_, ?_, ?_, by norm_num, le_refl 1⟩ <;>
    norm_num [probability_denominator, cond_prev_zero]

/-- Claim C4 as amended: for prevalence and similarity in the unit
interval, whenever the denominator of the Bayesian-style blend is nonzero
(it vanishes only at the corner points (0,1) and (1,0)), the denominator
is positive and the computed probability lies in the unit interval. -/
theorem probability_bounds_when_denominator_nonzero
    (cond : MedicalCondition) (s : ℚ)
    (hp0 : 0 ≤ cond.prevalence) (hp1 : cond.prevalence ≤ 1)
    (hs0 : 0 ≤ s) (hs1 : s ≤ 1)
    (hd : probability_denominator cond s ≠ 0) :
    0 < probability_denominator cond s ∧
    0 ≤ calculate_probability cond s ∧ calculate_probability cond s ≤ 1 := by
  have hterm1 : 0 ≤ cond.prevalence * s := mul_nonneg hp0 hs0
  have hterm2 : 0 ≤ (1 - cond.prevalence) * (1 - s) := by
    apply mul_nonneg <;> linarith
  have hge : 0 ≤ probability_denominator cond s := by
    unfold probability_denominator
    linarith
  have hpos : 0 < probability_denominator cond s :=
    lt_of_le_of_ne hge (Ne.symm hd)
  have hnumle : cond.prevalence * s ≤ probability_denominator cond s := by
    unfold probability_denominator
    linarith
  refine ⟨hpos, div_nonneg hterm1 hge, ?_⟩
  unfold calculate_probability
  exact (div_le_one hpos).mpr hnumle

/-- Witness for the amended C4 at prevalence one half and similarity one
half. -/
theorem probability_bounds_witness :
    (0 ≤ cond_common.prevalence ∧ cond_common.prevalence ≤ 1 ∧
      0 ≤ (1 / 2 : ℚ) ∧ (1 / 2 : ℚ) ≤ 1 ∧
      probability_denominator cond_common (1 / 2) ≠ 0) ∧
    (0 < probability_denominator cond_common (1 / 2) ∧
      0 ≤ calculate_probability cond_common (1 / 2) ∧
      calculate_probability cond_common (1 / 2) ≤ 1) := by
  have hp0 : 0 ≤ cond_common.prevalence := by norm_num [cond_common]
  have hp1 : cond_common.prevalence ≤ 1 := by norm_num [cond_common]
  have hs0 : (0 : ℚ) ≤ 1 / 2 := by norm_num
  have hs1 : (1 / 2 : ℚ) ≤ 1 := by norm_num
  have hd : probability_denominator cond_common (1 / 2) ≠ 0 := by
    norm_num [probability_denominator, cond_common]
  exact ⟨⟨hp0, hp1, hs0, hs1, hd⟩,
    probability_bounds_when_denominator_nonzero cond_common (1 / 2)
      hp0 hp1 hs0 hs1 hd⟩

/-- Claim C5: the pydantic PatientCase model imposes no bound on the
symptom count, so a case with 51 symptoms and a case with an empty symptom
list both pass structural validation, contradicting the spec scenario and
the repository tests which expect both to be rejected. -/
theorem patient_case_symptom_count_not_validated :
    validate_patient_case case_51 = true ∧ case_51.symptoms.length = 51 ∧
    validate_patient_case case_empty = true ∧
    case_empty.symptoms.length = 0 := by decide

/-- Counterexample to C6 as stated: a batch holding one well-formed point
and one point whose payload lacks prevalence data makes the search result
conversion raise a validation error, aborting the whole batch instead of
scoring the malformed entry with prevalence zero. -/
theorem search_missing_prevalence_counterexample :
    search_results [pt_good, pt_missing_prevalence] =
      Except.error "validation error: prevalence field required".toList := by
  simp only [search_results, parse_condition, pt_good, pt_missing_prevalence]
  norm_num

/-- Claim C6 as amended: any retrieval batch containing a point whose
knowledge-base payload is missing prevalence data makes the result
conversion of VectorStoreService.search fail with a validation error,
which propagates and aborts the analysis of the whole batch. -/
theorem search_error_on_missing_prevalence (pts : List ScoredPoint)
    (h : ∃ pt ∈ pts, pt.payload.prevalence = none) :
    ∃ e, search_results pts = Except.error e := by
  induction pts with
  | nil =>
    obtain ⟨pt, hmem, _⟩ := h
    exact absurd hmem (List.not_mem_nil pt)
  | cons pt rest ih =>
    obtain ⟨q, hq, hnone⟩ := h
    rcases List.mem_cons.mp hq with rfl | hqrest
    · refine ⟨"validation error: prevalence field required".toList, ?_⟩
      simp [search_results, parse_condition, hnone]
    · cases hpc : parse_condition pt.payload with
      | error e => exact ⟨e, by simp [search_results, hpc]⟩
      | ok c =>
        obtain ⟨e, he⟩ := ih ⟨q, hqrest, hnone⟩
        exact ⟨e, by simp [search_results, hpc, he]⟩

/-- Witness for the amended C6 at a concrete two-point batch. -/
theorem search_error_on_missing_prevalence_witness :
    (∃ pt ∈ [pt_good, pt_missing_prevalence], pt.payload.prevalence = none) ∧
    ∃ e, search_results [pt_good, pt_missing_prevalence] = Except.error e := by
  have h : ∃ pt ∈ [pt_good, pt_missing_prevalence],
      pt.payload.prevalence = none :=
    ⟨pt_missing_prevalence, by simp, rfl⟩
  exact ⟨h, search_error_on_missing_prevalence _ h⟩

/-! Constellation encoding (claim C7). -/

/-- A sum of squares is nonnegative. -/
theorem sumSq_nonneg (v : List ℝ) : 0 ≤ sumSq v := by
  induction v with
  | nil => exact le_refl 0
  | cons x v ih =>
    unfold sumSq
    have := mul_self_nonneg x
    linarith

/-- Dividing every component by a constant divides the sum of squares by
the square of the constant. -/
theorem sumSq_map_div (v : List ℝ) (c : ℝ) :
    sumSq (v.map (fun x => x / c)) = sumSq v / (c * c) := by
  induction v with
  | nil => simp [sumSq]
  | cons x v ih =>
    simp only [List.map_cons, sumSq, ih]
    ring

/-- Claim C7 as amended: for every non-empty list of descriptor embeddings
with per-descriptor weights, encode_symptom_constellation is the
element-wise mean of the weight-multiplied embeddings renormalised to unit
norm, and whenever that weighted mean is nonzero the returned vector has
L2 norm exactly one.  (The unamended claim fails when the weighted mean is
the zero vector, see the counterexample.) -/
theorem constellation_unit_norm (embs : List (List ℝ)) (weights : List ℝ)
    (hne : embs ≠ [])
    (h : sumSq (constellation_mean embs weights) ≠ 0) :
    encode_symptom_constellation embs weights =
      normalize_vec (constellation_mean embs weights) ∧
    l2norm (encode_symptom_constellation embs weights) = 1 := by
  refine ⟨rfl, ?_⟩
  unfold encode_symptom_constellation normalize_vec l2norm
  rw [sumSq_map_div]
  rw [Real.mul_self_sqrt (sumSq_nonneg _)]
  rw [div_self h]
  exact Real.sqrt_one

/-- Witness for the amended C7 at one descriptor with a unit embedding and
weight one. -/
theorem constellation_unit_norm_witness :
    ([[(1 : ℝ)]] ≠ ([] : List (List ℝ)) ∧
      sumSq (constellation_mean [[(1 : ℝ)]] [1]) ≠ 0) ∧
    l2norm (encode_symptom_constellation [[(1 : ℝ)]] [1]) = 1 := by
  have hne : [[(1 : ℝ)]] ≠ ([] : List (List ℝ)) := by simp
  have h : sumSq (constellation_mean [[(1 : ℝ)]] [1]) ≠ 0 := by
    simp [constellation_mean, weight_vecs, vsum, vmean, sumSq]
  exact ⟨⟨hne, h⟩, (constellation_unit_norm [[(1 : ℝ)]] [1] hne h).2⟩

/-- Counterexample to C7 as stated: two unit-norm descriptor embeddings
that cancel (with the uniform weight 1.0 the pipeline uses) give a zero
weighted mean, and the returned vector is not unit-norm — numpy divides by
a zero norm (NaN entries), this model returns the zero vector; in both
semantics the norm differs from one. -/
theorem constellation_zero_mean_counterexample :
    ([[(1 : ℝ)], [(-1 : ℝ)]] ≠ ([] : List (List ℝ))) ∧
    sumSq [(1 : ℝ)] = 1 ∧ sumSq [(-1 : ℝ)] = 1 ∧
    l2norm (encode_symptom_constellation [[(1 : ℝ)], [(-1 : ℝ)]] [1, 1]) ≠ 1 := by
  refine ⟨by simp, by norm_num [sumSq], by norm_num [sumSq], ?_⟩
  have hmean : constellation_mean [[(1 : ℝ)], [(-1 : ℝ)]] [1, 1] = [0] := by
    norm_num [constellation_mean, weight_vecs, vsum, vmean]
  unfold encode_symptom_constellation
  rw [hmean]
  norm_num [normalize_vec, l2norm, sumSq]

/-! Recommendation aggregation (claim C9). -/

/-- Set insertion preserves freedom from duplicates. -/
theorem insert_new_nodup (a : List Str) (x : Str) (h : a.Nodup) :
    (insert_new a x).Nodup := by
  unfold insert_new
  by_cases hx : x ∈ a
  · simpa [hx]
  · simp [hx, List.nodup_append, h]

/-- A fold of set insertions preserves freedom from duplicates. -/
theorem foldl_insert_new_nodup :
    ∀ (l : List Str) (acc : List Str), acc.Nodup →
      (l.foldl insert_new acc).Nodup := by
  intro l
  induction l with
  | nil => intro acc h; exact h
  | cons x l ih => intro acc h; exact ih _ (insert_new_nodup acc x h)

/-- The specialists set contents are duplicate-free. -/
theorem specialists_inserted_nodup
    (get_condition : Str → Option MedicalCondition)
    (diagnoses : List DifferentialDiagnosis) :
    (specialists_inserted get_condition diagnoses).Nodup := by
  unfold specialists_inserted
  generalize (diagnoses.take 3) = ds
  have aux : ∀ (l : List DifferentialDiagnosis) (acc : List Str), acc.Nodup →
      (l.foldl
        (fun acc d =>
          match get_condition d.condition_id with
          | none => acc
          | some c =>
            match c.specialist_referral with
            | none => acc
            | some r => if r = [] then acc else insert_new acc r)
        acc).Nodup := by
    intro l
    induction l with
    | nil => intro acc h; exact h
    | cons d l ih =>
      intro acc h
      refine ih _ ?_
      simp only []
      split
      · exact h
      · split
        · exact h
        · split
          · exact h
          · exact insert_new_nodup acc _ h
  exact aux ds [] List.nodup_nil

/-- The tests set contents are duplicate-free. -/
theorem tests_inserted_nodup (diagnoses : List DifferentialDiagnosis) :
    (tests_inserted diagnoses).Nodup := by
  unfold tests_inserted
  generalize (diagnoses.take 3) = ds
  have aux : ∀ (l : List DifferentialDiagnosis) (acc : List Str), acc.Nodup →
      (l.foldl (fun acc d => d.recommended_next_steps.foldl insert_new acc)
        acc).Nodup := by
    intro l
    induction l with
    | nil => intro acc h; exact h
    | cons d l ih =>
      intro acc h
      exact ih _ (foldl_insert_new_nodup d.recommended_next_steps acc h)
  exact aux ds [] List.nodup_nil

/-- Claim C9 as amended: for every faithful enumeration of the two Python
sets (any permutation of their contents), _generate_recommendations reads
only the top 3 ranked diagnoses, returns a duplicate-free specialists list
with exactly the collected referrals, and returns a duplicate-free tests
list of length at most 5 drawn from the collected next steps.  The
insertion-order part of the claim fails because Python set iteration order
is unspecified, see the counterexample. -/
theorem recommendations_dedup_cap (enum_s enum_t : List Str → List Str)
    (get_condition : Str → Option MedicalCondition)
    (diagnoses : List DifferentialDiagnosis)
    (hs : ∀ l, List.Perm (enum_s l) l) (ht : ∀ l, List.Perm (enum_t l) l) :
    (generate_recommendations enum_s enum_t get_condition diagnoses).1.Nodup ∧
    List.Perm (generate_recommendations enum_s enum_t get_condition diagnoses).1
      (specialists_inserted get_condition diagnoses) ∧
    (generate_recommendations enum_s enum_t get_condition diagnoses).2.Nodup ∧
    (generate_recommendations enum_s enum_t get_condition diagnoses).2.length ≤ 5 ∧
    (∀ x ∈ (generate_recommendations enum_s enum_t get_condition diagnoses).2,
      x ∈ tests_inserted diagnoses) ∧
    specialists_inserted get_condition diagnoses =
      specialists_inserted get_condition (diagnoses.take 3) ∧
    tests_inserted diagnoses = tests_inserted (diagnoses.take 3) := by
  unfold generate_recommendations
  refine ⟨?_, hs _, ?_, ?_, ?_, ?_, ?_⟩
  · exact ((hs _).nodup_iff).mpr
      (specialists_inserted_nodup get_condition diagnoses)
  · exact List.Nodup.sublist (List.take_sublist _ _)
      (((ht _).nodup_iff).mpr (tests_inserted_nodup diagnoses))
  · exact List.length_take_le _ _
  · intro x hx
    exact (ht _).mem_iff.mp ((List.take_sublist _ _).mem hx)
  · unfold specialists_inserted
    simp [List.take_take]
  · unfold tests_inserted
    simp [List.take_take]

/-- Witness for the amended C9 at the identity enumeration and a concrete
one-diagnosis list. -/
theorem recommendations_dedup_cap_witness :
    (∀ l : List Str, List.Perm (id l) l) ∧
    (generate_recommendations id id (fun _ => none) [diag_two_tests]).2.Nodup ∧
    (generate_recommendations id id (fun _ => none) [diag_two_tests]).2.length ≤ 5 := by
  have hid : ∀ l : List Str, List.Perm (id l) l := fun l => List.Perm.refl l
  obtain ⟨_, _, h3, h4, _⟩ :=
    recommendations_dedup_cap id id (fun _ => none) [diag_two_tests] hid hid
  exact ⟨hid, h3, h4⟩

/-- Counterexample to C9 as stated: Python set iteration order is
unspecified (hash-based), so the reverse of the insertion order is a
faithful enumeration of the tests set, and under it the returned tests
list differs from the set-insertion order the claim promises. -/
theorem recommendations_order_counterexample :
    (∀ l : List Str, List.Perm l.reverse l) ∧
    (generate_recommendations id List.reverse (fun _ => none)
        [diag_two_tests]).2 ≠
      (tests_inserted [diag_two_tests]).take 5 := by
  exact ⟨fun l => List.reverse_perm l, by decide⟩

/-! Ranking (claim C10). -/

/-- Membership through stable insertion. -/
theorem mem_ordered_insert_desc {α : Type} (key : α → ℚ) (x a : α) :
    ∀ l : List α, a ∈ ordered_insert_desc key x l ↔ a = x ∨ a ∈ l := by
  intro l
  induction l with
  | nil => simp [ordered_insert_desc]
  | cons y ys ih =>
    unfold ordered_insert_desc
    by_cases h : key y ≤ key x
    · simp [h]
    · simp only [if_neg h, List.mem_cons, ih]
      tauto

/-- Stable insertion preserves descending order by key. -/
theorem pairwise_ordered_insert_desc {α : Type} (key : α → ℚ) (x : α) :
    ∀ l : List α, l.Pairwise (fun a b => key b ≤ key a) →
      (ordered_insert_desc key x l).Pairwise (fun a b => key b ≤ key a) := by
  intro l
  induction l with
  | nil => simp [ordered_insert_desc]
  | cons y ys ih =>
    intro hp
    have hy := (List.pairwise_cons.mp hp).1
    have hys := (List.pairwise_cons.mp hp).2
    unfold ordered_insert_desc
    by_cases h : key y ≤ key x
    · rw [if_pos h]
      refine List.pairwise_cons.mpr ⟨?_, hp⟩
      intro z hz
      rcases List.mem_cons.mp hz with rfl | hz2
      · exact h
      · exact le_trans (hy z hz2) h
    · rw [if_neg h]
      refine List.pairwise_cons.mpr ⟨?_, ih hys⟩
      intro z hz
      rcases (mem_ordered_insert_desc key x z ys).mp hz with rfl | hz2
      · exact le_of_lt (lt_of_not_le h)
      · exact hy z hz2

/-- The stable sort produces a list in descending key order. -/
theorem pairwise_sort_desc {α : Type} (key : α → ℚ) :
    ∀ l : List α, (sort_desc key l).Pairwise (fun a b => key b ≤ key a) := by
  intro l
  induction l with
  | nil => simp [sort_desc]
  | cons x xs ih =>
    unfold sort_desc
    exact pairwise_ordered_insert_desc key x _ ih

/-- Membership through the stable sort. -/
theorem mem_sort_desc {α : Type} (key : α → ℚ) (a : α) :
    ∀ l : List α, a ∈ sort_desc key l ↔ a ∈ l := by
  intro l
  induction l with
  | nil => simp [sort_desc]
  | cons x xs ih =>
    unfold sort_desc
    rw [mem_ordered_insert_desc, ih, List.mem_cons]

/-- Projecting away the index tags commutes with stable insertion, because
the tagged key only reads the untagged component. -/
theorem map_snd_ordered_insert (x : ℕ × DifferentialDiagnosis) :
    ∀ l : List (ℕ × DifferentialDiagnosis),
      (ordered_insert_desc (fun p => p.2.confidence_score) x l).map Prod.snd =
        ordered_insert_desc (fun d => d.confidence_score) x.2
          (l.map Prod.snd) := by
  intro l
  induction l with
  | nil => simp [ordered_insert_desc]
  | cons y ys ih =>
    unfold ordered_insert_desc
    by_cases h : y.2.confidence_score ≤ x.2.confidence_score
    · simp [h]
    · simp only [if_neg h, List.map_cons, ih]

/-- Projecting away the index tags commutes with the stable sort. -/
theorem map_snd_sort_desc :
    ∀ l : List (ℕ × DifferentialDiagnosis),
      (sort_desc (fun p => p.2.confidence_score) l).map Prod.snd =
        sort_desc (fun d => d.confidence_score) (l.map Prod.snd) := by
  intro l
  induction l with
  | nil => simp [sort_desc]
  | cons x xs ih =>
    unfold sort_desc
    rw [map_snd_ordered_insert, ih]
    rfl

/-- Weakening of the stability relation to its key comparison. -/
theorem conf_lex_le {a b : ℕ × DifferentialDiagnosis} (h : conf_lex a b) :
    b.2.confidence_score ≤ a.2.confidence_score := by
  rcases h with h | ⟨h, _⟩
  · exact le_of_lt h
  · exact le_of_eq h.symm

/-- Stable insertion of an element whose tag exceeds every tag in the list
preserves the stability order. -/
theorem pairwise_lex_ordered_insert (x : ℕ × DifferentialDiagnosis) :
    ∀ l : List (ℕ × DifferentialDiagnosis), l.Pairwise conf_lex →
      (∀ y ∈ l, x.1 > y.1 → False) → (∀ y ∈ l, x.1 ≠ y.1) →
      (ordered_insert_desc (fun p => p.2.confidence_score) x l).Pairwise conf_lex := by
  intro l
  induction l with
  | nil => simp [ordered_insert_desc]
  | cons y ys ih =>
    intro hp hlt hne
    have hy := (List.pairwise_cons.mp hp).1
    have hys := (List.pairwise_cons.mp hp).2
    have hxy : x.1 < y.1 := by
      rcases Nat.lt_trichotomy x.1 y.1 with h | h | h
      · exact h
      · exact absurd h (hne y (List.mem_cons_self _ _))
      · exact absurd h (fun hgt => hlt y (List.mem_cons_self _ _) hgt)
    unfold ordered_insert_desc
    by_cases h : y.2.confidence_score ≤ x.2.confidence_score
    · rw [if_pos h]
      refine List.pairwise_cons.mpr ⟨?_, hp⟩
      intro z hz
      rcases List.mem_cons.mp hz with rfl | hz2
      · rcases lt_or_eq_of_le h with hlt2 | heq
        · exact Or.inl hlt2
        · exact Or.inr ⟨heq.symm, hxy⟩
      · have hzy : z.2.confidence_score ≤ y.2.confidence_score :=
          conf_lex_le (hy z hz2)
        rcases lt_or_eq_of_le (le_trans hzy h) with hlt2 | heq
        · exact Or.inl hlt2
        · refine Or.inr ⟨heq.symm, ?_⟩
          rcases Nat.lt_trichotomy x.1 z.1 with h2 | h2 | h2
          · exact h2
          · exact absurd h2 (hne z (List.mem_cons_of_mem _ hz2))
          · exact absurd h2
              (fun hgt => hlt z (List.mem_cons_of_mem _ hz2) hgt)
    · rw [if_neg h]
      refine List.pairwise_cons.mpr ⟨?_, ?_⟩
      · intro z hz
        rcases (mem_ordered_insert_desc _ x z ys).mp hz with rfl | hz2
        · exact Or.inl (lt_of_not_le h)
        · exact hy z hz2
      · refine ih hys ?_ ?_
        · intro z hz2 hgt
          exact hlt z (List.mem_cons_of_mem _ hz2) hgt
        · intro z hz2
          exact hne z (List.mem_cons_of_mem _ hz2)

/-- The stable sort of a list with strictly increasing tags is ordered by
the stability relation: descending confidence, and original order among
equal confidences. -/
theorem pairwise_lex_sort_desc :
    ∀ l : List (ℕ × DifferentialDiagnosis),
      l.Pairwise (fun a b => a.1 < b.1) →
      (sort_desc (fun p => p.2.confidence_score) l).Pairwise conf_lex := by
  intro l
  induction l with
  | nil => simp [sort_desc]
  | cons x xs ih =>
    intro hp
    have hx := (List.pairwise_cons.mp hp).1
    have hxs := (List.pairwise_cons.mp hp).2
    unfold sort_desc
    refine pairwise_lex_ordered_insert x _ (ih hxs) ?_ ?_
    · intro y hy hgt
      have : y ∈ xs := (mem_sort_desc _ y xs).mp hy
      exact absurd (hx y this) (Nat.lt_asymm hgt)
    · intro y hy
      have : y ∈ xs := (mem_sort_desc _ y xs).mp hy
      exact Nat.ne_of_lt (hx y this)

/-- The index tags produced by List.enum are strictly increasing. -/
theorem pairwise_fst_lt_enum {α : Type} (l : List α) :
    (List.enum l).Pairwise (fun a b => a.1 < b.1) := by
  have haux : ∀ (n : ℕ) (l2 : List α) (p : ℕ × α),
      p ∈ List.enumFrom n l2 → n ≤ p.1 := by
    intro n l2
    induction l2 generalizing n with
    | nil => intro p hp; simp at hp
    | cons x xs ih =>
      intro p hp
      rcases List.mem_cons.mp hp with rfl | hp2
      · exact le_refl n
      · exact le_trans (Nat.le_succ n) (ih (n + 1) p hp2)
  have hfrom : ∀ (n : ℕ) (l2 : List α),
      (List.enumFrom n l2).Pairwise (fun a b => a.1 < b.1) := by
    intro n l2
    induction l2 generalizing n with
    | nil => simp
    | cons x xs ih =>
      refine List.pairwise_cons.mpr ⟨?_, ih (n + 1)⟩
      intro b hb
      exact lt_of_lt_of_le (Nat.lt_succ_self n) (haux (n + 1) xs b hb)
  exact hfrom 0 l

/-- Claim C10: the externally visible ranked list is the scored candidate
list sorted in descending confidence order and truncated to the default
final_results_limit of 10; the sort is stable, so candidates of equal
confidence keep their retrieval order (stated on the index-tagged list:
its stable sort is ordered by conf_lex and projects onto the ranked
list). -/
theorem ranker_sorted_bounded_stable (candidates : List (MedicalCondition × ℚ)) :
    (ranked_output candidates).length ≤ final_results_limit ∧
    (ranked_output candidates).Pairwise conf_ge ∧
    (sort_desc (fun p => p.2.confidence_score)
        (List.enum (scored_list candidates))).map Prod.snd =
      rank_and_score_diagnoses candidates ∧
    (sort_desc (fun p => p.2.confidence_score)
        (List.enum (scored_list candidates))).Pairwise conf_lex := by
  refine ⟨?_, ?_, ?_, ?_⟩
  · unfold ranked_output
    exact List.length_take_le _ _
  · unfold ranked_output rank_and_score_diagnoses
    exact List.Pairwise.sublist (List.take_sublist _ _)
      (pairwise_sort_desc (fun d : DifferentialDiagnosis => d.confidence_score) _)
  · rw [map_snd_sort_desc, List.enum_map_snd]
    rfl
  · exact pairwise_lex_sort_desc _ (pairwise_fst_lt_enum _)

end DoctorAi
